import Mathlib

/-!
Verification of the timestamped input log and playback scheduler of
`leafwing_input_playback`.

The repository ships its integration tests (`src/tests/input_playback.rs`)
and an example host application (`src/examples/gamepad.rs`); the library
crate itself (the `timestamped_input`, `input_playback`, `input_capture`
and `frame_counting` modules) is not part of the sources available here.
The definitions below therefore embed the data model and the per-tick
playback step as described by the specification, and the development
validates the embedding against every assertion made by the shipped
integration tests before proving the specification claims over it.

Frames (`FrameCount` in the source) are modelled as `Nat`; durations are
modelled as `Nat` time units, since the core treats them as opaque stamps.
-/

set_option autoImplicit false

/-- Whether a key event is a press or a release; mirrors
`bevy::input::ButtonState` as used by the tests. -/
inductive ButtonState where
  | Pressed
  | Released
deriving DecidableEq, Repr

/-- A keyboard event as used by the integration tests: a scan code, an
optional logical key code, and a press/release state. Key codes are
modelled as `Nat`. -/
structure KeyboardInput where
  scan_code : Nat
  key_code : Option Nat
  state : ButtonState
deriving DecidableEq, Repr

/-- Modelled from the spec: `InputEvent` is a tagged union over the device
classes, treated opaquely by the core. Only the keyboard class is exercised
by the claims and tests, so the other classes are represented by a single
opaque-payload constructor. -/
inductive InputEvent where
  | Keyboard (input : KeyboardInput)
  | OtherDevice (payload : Nat)
deriving DecidableEq, Repr

/-- Modelled from the spec: a `(frame, elapsed_time, event)` record of the
timestamped input log (`TimestampedInputEvent` in the crate). -/
structure TimestampedInputEvent where
  frame : Nat
  time_since_startup : Nat
  input_event : InputEvent
deriving DecidableEq, Repr

/-- Modelled from the spec: the append-only store of timestamped events
plus a read cursor (`TimestampedInputs` in the crate).
Invariant maintained by the operations: `cursor ≤ events.length`. -/
structure TimestampedInputs where
  events : List TimestampedInputEvent
  cursor : Nat
deriving DecidableEq, Repr

/-- Modelled from the spec: the log is created empty (the crate's
`TimestampedInputs::default()`). -/
def TimestampedInputs.default : TimestampedInputs :=
  { events := [], cursor := 0 }

instance : Inhabited TimestampedInputs := ⟨TimestampedInputs.default⟩

/-- Modelled from the spec: `send` appends a stamped event at the end of
the log; it never touches the cursor. -/
def TimestampedInputs.send (log : TimestampedInputs) (frame : Nat)
    (time_since_startup : Nat) (input_event : InputEvent) : TimestampedInputs :=
  { log with events := log.events ++ [⟨frame, time_since_startup, input_event⟩] }

/-- Appends a whole list of records in order, via repeated `send`. -/
def TimestampedInputs.sendAll (log : TimestampedInputs)
    (entries : List TimestampedInputEvent) : TimestampedInputs :=
  entries.foldl (fun l e => l.send e.frame e.time_since_startup e.input_event) log

/-- Modelled from the spec: `reset_cursor` sets the cursor to 0 and does
not clear stored events. -/
def TimestampedInputs.reset_cursor (log : TimestampedInputs) : TimestampedInputs :=
  { log with cursor := 0 }

/-- Modelled from the spec: `clear` empties the sequence and resets the
cursor to 0. -/
def TimestampedInputs.clear (_log : TimestampedInputs) : TimestampedInputs :=
  TimestampedInputs.default

/-- Folds the running `(min, max)` of the stored frame values over a list
of records, starting from the accumulator `(a, b)`. -/
def minMaxFold (l : List TimestampedInputEvent) (a b : Nat) : Nat × Nat :=
  l.foldl (fun p ev => (min p.1 ev.frame, max p.2 ev.frame)) (a, b)

/-- Modelled from the spec: `frame_range` returns `(min_frame, max_frame)`
over all stored events, or `none` if the log is empty — an explicit absent
result, not a sentinel pair. -/
def TimestampedInputs.frame_range (log : TimestampedInputs) : Option (Nat × Nat) :=
  match log.events with
  | [] => none
  | e :: rest => some (minMaxFold rest e.frame e.frame)

/-- The stored frame values are non-decreasing in insertion order; the
log's ordering invariant from the spec. -/
def FrameOrdered (events : List TimestampedInputEvent) : Prop :=
  List.Pairwise (fun a b => a.frame ≤ b.frame) events

instance (events : List TimestampedInputEvent) : Decidable (FrameOrdered events) :=
  inferInstanceAs (Decidable (List.Pairwise _ events))

/-- Modelled from the spec: the four playback modes. Frame bounds of the
ranged modes are the closed-open window `[start, stop)`. -/
inductive PlaybackStrategy where
  | Paused
  | FrameCount
  | FrameRangeOnce (start stop : Nat)
  | FrameRangeLoop (start stop : Nat)
deriving DecidableEq, Repr

/-- Modelled from the spec: the state read and written by the playback
system each tick — the frame counter, the log, the strategy resource, and
the internal progress marker of the ranged strategies. -/
structure PlaybackState where
  frame : Nat
  log : TimestampedInputs
  strategy : PlaybackStrategy
  progress : Nat
deriving DecidableEq, Repr

/-- The not-yet-consumed suffix of the log, from the cursor on. -/
def PlaybackState.pending (st : PlaybackState) : List TimestampedInputEvent :=
  st.log.events.drop st.log.cursor

/-- Modelled from the spec: one run of the playback system at the current
frame value `st.frame`. Returns the successor state and the list of events
emitted into the host's event streams this tick.

* `Paused`: nothing is emitted, the cursor is untouched.
* `FrameCount`: consumes (and emits) the pending events up to and
  including the current frame, advancing the cursor past them. The tests
  (`repeated_playback`, `playback_strategy_frame`) pin this to
  "events with frame ≤ current frame", a catch-up semantics.
* `FrameRangeOnce start stop`: one frame's worth of the window per tick,
  via the internal progress marker; on the tick where `start + progress`
  reaches or exceeds `stop` it emits nothing and self-transitions to
  `Paused`.
* `FrameRangeLoop start stop`: identical inside the window, but the
  exhaustion tick instead resets the cursor and the progress marker and
  keeps the strategy — the quiet "spacing" tick between iterations. -/
def playbackStep (st : PlaybackState) : PlaybackState × List TimestampedInputEvent :=
  match st.strategy with
  | PlaybackStrategy.Paused => (st, [])
  | PlaybackStrategy.FrameCount =>
      let consumed := st.pending.takeWhile (fun e => decide (e.frame ≤ st.frame))
      ({ st with log := { st.log with cursor := st.log.cursor + consumed.length } },
       consumed)
  | PlaybackStrategy.FrameRangeOnce start stop =>
      if stop ≤ start + st.progress then
        ({ st with strategy := PlaybackStrategy.Paused, progress := 0 }, [])
      else
        let target := start + st.progress
        let consumed := st.pending.takeWhile (fun e => decide (e.frame ≤ target))
        ({ st with log := { st.log with cursor := st.log.cursor + consumed.length },
                   progress := st.progress + 1 },
         consumed.filter (fun e => decide (e.frame = target)))
  | PlaybackStrategy.FrameRangeLoop start stop =>
      if stop ≤ start + st.progress then
        ({ st with log := { st.log with cursor := 0 }, progress := 0 }, [])
      else
        let target := start + st.progress
        let consumed := st.pending.takeWhile (fun e => decide (e.frame ≤ target))
        ({ st with log := { st.log with cursor := st.log.cursor + consumed.length },
                   progress := st.progress + 1 },
         consumed.filter (fun e => decide (e.frame = target)))

/-- Modelled from the spec: one full update tick — the frame counter is
incremented by exactly one before playback consults it (§4.1), then the
playback system runs. -/
def playbackTick (st : PlaybackState) : PlaybackState × List TimestampedInputEvent :=
  playbackStep { st with frame := st.frame + 1 }

/-- Runs `n` consecutive ticks, collecting the per-tick emission lists in
order. -/
def runTicks (st : PlaybackState) : Nat → PlaybackState × List (List TimestampedInputEvent)
  | 0 => (st, [])
  | n + 1 =>
      let r1 := playbackTick st
      let r2 := runTicks r1.1 n
      (r2.1, r1.2 :: r2.2)

/-- The cursor position after `k` ticks of a ranged strategy playing the
window starting at `start` over a log with initial cursor 0: no ticks
leave the cursor at 0, and `k + 1` ticks have consumed every event of the
maximal prefix whose frame is at most `start + k`. -/
def rangeCursor (events : List TimestampedInputEvent) (start : Nat) : Nat → Nat
  | 0 => 0
  | k + 1 => (events.takeWhile (fun e => decide (e.frame ≤ start + k))).length

/-- The key press used by the integration tests (`TEST_PRESS`). -/
def TEST_PRESS : KeyboardInput :=
  { scan_code := 1, key_code := some 70, state := ButtonState.Pressed }

/-- The key release used by the integration tests (`TEST_RELEASE`). -/
def TEST_RELEASE : KeyboardInput :=
  { scan_code := 1, key_code := some 70, state := ButtonState.Released }

/-- The two-event log built by the tests' `simple_timestamped_input`. -/
def simple_timestamped_input : TimestampedInputs :=
  ((TimestampedInputs.default).send 1 0 (InputEvent.Keyboard TEST_PRESS)).send 2 0
    (InputEvent.Keyboard TEST_RELEASE)

/-- The five-event log built by the tests' `complex_timestamped_input`:
frames 0, 1, 2, 2, 3. -/
def complex_timestamped_input : TimestampedInputs :=
  (((((TimestampedInputs.default).send 0 0 (InputEvent.Keyboard TEST_PRESS)).send 1 1
      (InputEvent.Keyboard TEST_RELEASE)).send 2 2
      (InputEvent.Keyboard TEST_PRESS)).send 2 3
      (InputEvent.Keyboard TEST_PRESS)).send 3 3
      (InputEvent.Keyboard TEST_PRESS)

/-- Initial app state of the playback tests: frame counter 0, a chosen
strategy, an installed log, cursor 0, no ranged progress. -/
def playback_app (strategy : PlaybackStrategy) (log : TimestampedInputs) : PlaybackState :=
  { frame := 0, log := log, strategy := strategy, progress := 0 }

/-- Modelled from the spec: the `CaptureModeSet` bitset
(`InputModesCaptured` in the crate) — which device classes are eligible
for capture. -/
structure InputModesCaptured where
  mouse : Bool
  keyboard : Bool
  gamepad : Bool
deriving DecidableEq, Repr

/-- The empty capture set (`InputModesCaptured::DISABLE_ALL`). -/
def InputModesCaptured.DISABLE_ALL : InputModesCaptured :=
  { mouse := false, keyboard := false, gamepad := false }

/-- The full capture set (`InputModesCaptured::ENABLE_ALL`). -/
def InputModesCaptured.ENABLE_ALL : InputModesCaptured :=
  { mouse := true, keyboard := true, gamepad := true }

/-- Modelled from the spec: capture is enabled by default — the
`capture_and_playback` test relies on the capture plugin recording
keyboard input without any configuration. -/
instance : Inhabited InputModesCaptured := ⟨InputModesCaptured.ENABLE_ALL⟩

/-- How a keyboard event updates the host's pressed-key state
(`Input<KeyCode>` in bevy): a press inserts the key code, a release
removes it; events without a key code change nothing. -/
def applyKeyboardEvent (pressed : List Nat) (e : KeyboardInput) : List Nat :=
  match e.key_code with
  | none => pressed
  | some k =>
      match e.state with
      | ButtonState.Pressed => pressed.insert k
      | ButtonState.Released => pressed.erase k

/-- The keyboard payloads among a list of emitted log events. -/
def playedKeyboard (es : List TimestampedInputEvent) : List KeyboardInput :=
  es.filterMap (fun e =>
    match e.input_event with
    | InputEvent.Keyboard k => some k
    | InputEvent.OtherDevice _ => none)

/-- Modelled from the spec: once per tick the capture system drains the
host's fresh raw keyboard events (when the keyboard class is enabled),
stamps them with the current frame and elapsed time, and appends them to
the log in the order received. -/
def captureKeyboard (modes : InputModesCaptured) (frame : Nat)
    (raw : List KeyboardInput) (log : TimestampedInputs) : TimestampedInputs :=
  if modes.keyboard then
    raw.foldl (fun l e => l.send frame frame (InputEvent.Keyboard e)) log
  else
    log

/-- The whole app state exercised by `capture_and_playback`: the playback
state plus the capture mode set and the host's pressed-key state. -/
structure World where
  frame : Nat
  log : TimestampedInputs
  strategy : PlaybackStrategy
  progress : Nat
  modes : InputModesCaptured
  pressed : List Nat
deriving DecidableEq, Repr

/-- One full update tick of the combined app: the frame counter is
incremented, capture appends the tick's raw events, playback runs, and the
host's pressed-key state digests both the raw and the played-back keyboard
events. Returns the new state and the played-back keyboard events. -/
def worldTick (raw : List KeyboardInput) (w : World) : World × List KeyboardInput :=
  let f := w.frame + 1
  let log1 := captureKeyboard w.modes f raw w.log
  let r := playbackStep { frame := f, log := log1, strategy := w.strategy, progress := w.progress }
  let played := playedKeyboard r.2
  ({ frame := f, log := r.1.log, strategy := r.1.strategy, progress := r.1.progress,
     modes := w.modes,
     pressed := (raw ++ played).foldl applyKeyboardEvent w.pressed },
   played)

/-- Runs `n` ticks of the combined app with no raw input arriving. -/
def runWorldIdle (w : World) : Nat → World
  | 0 => w
  | n + 1 => runWorldIdle (worldTick [] w).1 n

/-- The two modes of the gamepad example's toggle system. -/
inductive InputStrategy where
  | Capture
  | Playback
deriving DecidableEq, Repr

/-- The resources touched by the gamepad example's
`toggle_capture_vs_playback` system. -/
structure HostState where
  input_modes : InputModesCaptured
  playback_strategy : PlaybackStrategy
  timestamped_input : TimestampedInputs
  input_strategy : InputStrategy
deriving Repr

/-- The `toggle_capture_vs_playback` system of `src/examples/gamepad.rs`:
on a Space press it flips between capturing and playing back. Leaving
capture mode disables capture and adopts a ranged playback strategy over
the recorded `frame_range` (or pauses when nothing was recorded); leaving
playback mode enables capture, pauses playback, and replaces the log with
a fresh default one. -/
def toggle_capture_vs_playback (space_just_pressed : Bool) (st : HostState) : HostState :=
  if space_just_pressed then
    match st.input_strategy with
    | InputStrategy.Capture =>
        { st with
          input_modes := InputModesCaptured.DISABLE_ALL,
          playback_strategy :=
            match st.timestamped_input.frame_range with
            | some (start, stop) => PlaybackStrategy.FrameRangeOnce start stop
            | none => PlaybackStrategy.Paused,
          input_strategy := InputStrategy.Playback }
    | InputStrategy.Playback =>
        { st with
          input_modes := InputModesCaptured.ENABLE_ALL,
          playback_strategy := PlaybackStrategy.Paused,
          timestamped_input := TimestampedInputs.default,
          input_strategy := InputStrategy.Capture }
  else
    st

/-- Modelled from the spec: the configuration error signalled when a
ranged strategy is adopted with `start > end` (§4.3, §7). -/
inductive ConfigError where
  | InvalidRange (start stop : Nat)
deriving DecidableEq, Repr

/-- Modelled from the spec: adopting a playback strategy validates ranged
bounds at the point of adoption — `start > end` is signalled as a
configuration error rather than silently swapped or deferred until
playback runs (§4.3, §7). -/
def adopt_strategy (s : PlaybackStrategy) : Except ConfigError PlaybackStrategy :=
  match s with
  | PlaybackStrategy.FrameRangeOnce start stop =>
      if stop < start then Except.error (ConfigError.InvalidRange start stop)
      else Except.ok (PlaybackStrategy.FrameRangeOnce start stop)
  | PlaybackStrategy.FrameRangeLoop start stop =>
      if stop < start then Except.error (ConfigError.InvalidRange start stop)
      else Except.ok (PlaybackStrategy.FrameRangeLoop start stop)
  | s => Except.ok s

/-- The capture-then-playback scenario of the `capture_and_playback` test:
a fresh app (capture enabled by default, playback paused) receives one raw
key press on tick 1 and captures it into the log, idles for `m` further
ticks, then the host disables capture (`InputModesCaptured::DISABLE_ALL`),
selects `PlaybackStrategy::FrameCount`, and runs one more tick. Returns
that final tick's result. -/
def roundTripScenario (sc k m : Nat) : World × List KeyboardInput :=
  let press : KeyboardInput := { scan_code := sc, key_code := some k, state := ButtonState.Pressed }
  let w0 : World :=
    { frame := 0, log := TimestampedInputs.default, strategy := PlaybackStrategy.Paused,
      progress := 0, modes := default, pressed := [] }
  let w1 := (worldTick [press] w0).1
  let w2 := runWorldIdle w1 m
  worldTick [] { w2 with modes := InputModesCaptured.DISABLE_ALL,
                         strategy := PlaybackStrategy.FrameCount }

/-- The model reproduces the `playback_strategy_frame` test: under
`FrameCount` over `complex_timestamped_input` the cursor is 2, 4, 5 after
ticks 1, 2, 3. -/
theorem model_validates_playback_strategy_frame :
    ((runTicks (playback_app PlaybackStrategy.FrameCount complex_timestamped_input) 1).1.log.cursor = 2) ∧
    ((runTicks (playback_app PlaybackStrategy.FrameCount complex_timestamped_input) 2).1.log.cursor = 4) ∧
    ((runTicks (playback_app PlaybackStrategy.FrameCount complex_timestamped_input) 3).1.log.cursor = 5) := by
  decide

/-- The model reproduces the `minimal_playback` test: tick 1 emits the
single frame-1 press (so the double-buffered event count is 1, and 2 on
tick 2 when the frame-2 release joins it). -/
theorem model_validates_minimal_playback :
    (runTicks (playback_app PlaybackStrategy.FrameCount simple_timestamped_input) 2).2 =
      [[⟨1, 0, InputEvent.Keyboard TEST_PRESS⟩], [⟨2, 0, InputEvent.Keyboard TEST_RELEASE⟩]] := by
  decide

/-- The model reproduces the `repeated_playback` test: after nine ticks
nothing is left to emit (the double-buffered count is 0), and after
`reset_cursor` one further tick emits both events again. -/
theorem model_validates_repeated_playback :
    (let first := runTicks (playback_app PlaybackStrategy.FrameCount simple_timestamped_input) 9
     (first.2.getLast? = some [] ∧
      (playbackTick { first.1 with log := first.1.log.reset_cursor }).2.length = 2)) := by
  decide

/-- The model reproduces the `playback_strategy_paused` test: ten ticks
leave the cursor at 0. -/
theorem model_validates_playback_strategy_paused :
    (runTicks (playback_app PlaybackStrategy.Paused complex_timestamped_input) 10).1.log.cursor = 0 := by
  decide

/-- The model reproduces the `playback_strategy_frame_range_once` test:
per-tick emissions 2, 1, 0, 0 (double-buffered counts 2, 3, 1, 0), the
strategy still ranged after tick 3 and `Paused` after tick 4. -/
theorem model_validates_playback_strategy_frame_range_once :
    (let st := playback_app (PlaybackStrategy.FrameRangeOnce 2 5) complex_timestamped_input
     ((runTicks st 4).2.map List.length = [2, 1, 0, 0] ∧
      (runTicks st 3).1.strategy = PlaybackStrategy.FrameRangeOnce 2 5 ∧
      (runTicks st 4).1.strategy = PlaybackStrategy.Paused)) := by
  decide

/-- The model reproduces the `playback_strategy_frame_range_loop` test:
per-tick emissions 2, 1, 0, 0, 2 — the quiet spacing tick and the loop
restart — with the strategy still the same loop after the fifth tick. -/
theorem model_validates_playback_strategy_frame_range_loop :
    (let st := playback_app (PlaybackStrategy.FrameRangeLoop 2 5) complex_timestamped_input
     ((runTicks st 5).2.map List.length = [2, 1, 0, 0, 2] ∧
      (runTicks st 3).1.strategy = PlaybackStrategy.FrameRangeLoop 2 5 ∧
      (runTicks st 5).1.strategy = PlaybackStrategy.FrameRangeLoop 2 5)) := by
  decide

/-- The model reproduces the `capture_and_playback` test: a raw press is
captured on tick 1 (playback paused), stays pressed through tick 2, and
after disabling capture and enabling `FrameCount` playback the captured
press is re-emitted and registers as pressed. -/
theorem model_validates_capture_and_playback :
    (let w0 : World :=
       { frame := 0, log := TimestampedInputs.default, strategy := PlaybackStrategy.Paused,
         progress := 0, modes := default, pressed := [] }
     let w1 := (worldTick [TEST_PRESS] w0).1
     let w2 := (worldTick [] w1).1
     let w3 := { w2 with modes := InputModesCaptured.DISABLE_ALL,
                         strategy := PlaybackStrategy.FrameCount }
     let r := worldTick [] w3
     (70 ∈ w1.pressed ∧ 70 ∈ w2.pressed ∧ r.2 = [TEST_PRESS] ∧ 70 ∈ r.1.pressed)) := by
  decide

/-! ## General lemmas about the list operations used by playback -/

/-- If predicate `p` implies predicate `q`, taking the `q`-prefix of a
list splits as the `p`-prefix followed by the `q`-prefix of the rest. -/
theorem takeWhile_split {α : Type _} (p q : α → Bool)
    (hpq : ∀ x, p x = true → q x = true) (l : List α) :
    l.takeWhile q = l.takeWhile p ++ (l.dropWhile p).takeWhile q := by
  induction l with
  | nil => rfl
  | cons x xs ih =>
    cases hp : p x with
    | false => simp [List.takeWhile_cons, List.dropWhile_cons, hp]
    | true => simp [List.takeWhile_cons, List.dropWhile_cons, hp, hpq x hp, ih]

/-- Dropping the maximal `p`-prefix is the same as dropping its length. -/
theorem drop_takeWhile_length {α : Type _} (p : α → Bool) (l : List α) :
    l.drop (l.takeWhile p).length = l.dropWhile p := by
  induction l with
  | nil => rfl
  | cons x xs ih =>
    cases hp : p x with
    | false => simp [List.takeWhile_cons, List.dropWhile_cons, hp]
    | true => simp [List.takeWhile_cons, List.dropWhile_cons, hp, ih]

/-- A suffix of a frame-ordered list is frame-ordered. -/
theorem FrameOrdered.drop {events : List TimestampedInputEvent} (n : Nat)
    (h : FrameOrdered events) : FrameOrdered (events.drop n) :=
  List.Pairwise.sublist (List.drop_sublist n events) h

/-- In a frame-ordered list, every event beyond the maximal prefix of
frames at most `f` has a frame strictly greater than `f`. -/
theorem mem_dropWhile_frame_gt (f : Nat) (l : List TimestampedInputEvent)
    (h : FrameOrdered l) :
    ∀ e ∈ l.dropWhile (fun e => decide (e.frame ≤ f)), f < e.frame := by
  induction l with
  | nil => simp [List.dropWhile]
  | cons x xs ih =>
    rcases List.pairwise_cons.mp h with ⟨hx, hxs⟩
    by_cases hxf : x.frame ≤ f
    · simpa [List.dropWhile_cons, hxf] using ih hxs
    · intro e he
      rw [List.dropWhile_cons, if_neg (by simp [hxf])] at he
      rcases List.mem_cons.mp he with rfl | he
      · omega
      · exact lt_of_lt_of_le (by omega) (hx e he)

/-- On a frame-ordered list, the maximal prefix with frame at most `f` is
all of the events with frame at most `f`. -/
theorem takeWhile_frame_le_eq_filter (f : Nat) (l : List TimestampedInputEvent)
    (h : FrameOrdered l) :
    l.takeWhile (fun e => decide (e.frame ≤ f)) = l.filter (fun e => decide (e.frame ≤ f)) := by
  induction l with
  | nil => rfl
  | cons x xs ih =>
    rcases List.pairwise_cons.mp h with ⟨hx, hxs⟩
    by_cases hxf : x.frame ≤ f
    · simp [List.takeWhile_cons, List.filter_cons, hxf, ih hxs]
    · have hnil : xs.filter (fun e => decide (e.frame ≤ f)) = [] := by
        rw [List.filter_eq_nil_iff]
        intro a ha
        have := hx a ha
        simp only [decide_eq_true_eq]
        omega
      simp [List.takeWhile_cons, List.filter_cons, hxf, hnil]

/-- On a frame-ordered list, filtering a single frame `t` out of the
maximal prefix with frames at most `t` already sees every event of
frame `t`. -/
theorem filter_frame_eq_takeWhile (t : Nat) (l : List TimestampedInputEvent)
    (h : FrameOrdered l) :
    (l.takeWhile (fun e => decide (e.frame ≤ t))).filter (fun e => decide (e.frame = t)) =
      l.filter (fun e => decide (e.frame = t)) := by
  conv_rhs => rw [← List.takeWhile_append_dropWhile (fun e => decide (e.frame ≤ t)) l]
  rw [List.filter_append]
  have hnil : (l.dropWhile (fun e => decide (e.frame ≤ t))).filter
      (fun e => decide (e.frame = t)) = [] := by
    rw [List.filter_eq_nil_iff]
    intro a ha
    have := mem_dropWhile_frame_gt t l h a ha
    simp only [decide_eq_true_eq]
    omega
  rw [hnil, List.append_nil]

/-! ## Unfolding lemmas for the playback step -/

theorem playbackStep_paused (st : PlaybackState)
    (h : st.strategy = PlaybackStrategy.Paused) :
    playbackStep st = (st, []) := by
  unfold playbackStep
  rw [h]

theorem playbackStep_frameCount (st : PlaybackState)
    (h : st.strategy = PlaybackStrategy.FrameCount) :
    playbackStep st =
      ({ st with log := { st.log with cursor := st.log.cursor +
            (st.pending.takeWhile (fun e => decide (e.frame ≤ st.frame))).length } },
       st.pending.takeWhile (fun e => decide (e.frame ≤ st.frame))) := by
  unfold playbackStep
  rw [h]

theorem playbackStep_once_exhausted (st : PlaybackState) (start stop : Nat)
    (h : st.strategy = PlaybackStrategy.FrameRangeOnce start stop)
    (hge : stop ≤ start + st.progress) :
    playbackStep st = ({ st with strategy := PlaybackStrategy.Paused, progress := 0 }, []) := by
  obtain ⟨f, log, strat, prog⟩ := st
  dsimp only at h hge ⊢
  subst h
  simp only [playbackStep]
  rw [if_pos hge]

theorem playbackStep_once_active (st : PlaybackState) (start stop : Nat)
    (h : st.strategy = PlaybackStrategy.FrameRangeOnce start stop)
    (hlt : start + st.progress < stop) :
    playbackStep st =
      ({ st with log := { st.log with cursor := st.log.cursor +
                            (st.pending.takeWhile
                              (fun e => decide (e.frame ≤ start + st.progress))).length },
                 progress := st.progress + 1 },
       (st.pending.takeWhile (fun e => decide (e.frame ≤ start + st.progress))).filter
         (fun e => decide (e.frame = start + st.progress))) := by
  obtain ⟨f, log, strat, prog⟩ := st
  dsimp only at h hlt ⊢
  subst h
  simp only [playbackStep]
  rw [if_neg (by omega)]

theorem playbackStep_loop_exhausted (st : PlaybackState) (start stop : Nat)
    (h : st.strategy = PlaybackStrategy.FrameRangeLoop start stop)
    (hge : stop ≤ start + st.progress) :
    playbackStep st = ({ st with log := { st.log with cursor := 0 }, progress := 0 }, []) := by
  obtain ⟨f, log, strat, prog⟩ := st
  dsimp only at h hge ⊢
  subst h
  simp only [playbackStep]
  rw [if_pos hge]

theorem playbackStep_loop_active (st : PlaybackState) (start stop : Nat)
    (h : st.strategy = PlaybackStrategy.FrameRangeLoop start stop)
    (hlt : start + st.progress < stop) :
    playbackStep st =
      ({ st with log := { st.log with cursor := st.log.cursor +
                            (st.pending.takeWhile
                              (fun e => decide (e.frame ≤ start + st.progress))).length },
                 progress := st.progress + 1 },
       (st.pending.takeWhile (fun e => decide (e.frame ≤ start + st.progress))).filter
         (fun e => decide (e.frame = start + st.progress))) := by
  obtain ⟨f, log, strat, prog⟩ := st
  dsimp only at h hlt ⊢
  subst h
  simp only [playbackStep]
  rw [if_neg (by omega)]

theorem playbackTick_paused (st : PlaybackState)
    (h : st.strategy = PlaybackStrategy.Paused) :
    playbackTick st = ({ st with frame := st.frame + 1 }, []) :=
  playbackStep_paused { st with frame := st.frame + 1 } h

/-- A paused playback state only counts frames: `n` ticks emit `n` empty
emission lists and touch nothing but the frame counter. -/
theorem runTicks_paused (n : Nat) :
    ∀ st : PlaybackState, st.strategy = PlaybackStrategy.Paused →
      runTicks st n = ({ st with frame := st.frame + n }, List.replicate n []) := by
  induction n with
  | zero => intro st _; rfl
  | succ n ih =>
    intro st h
    show (let r1 := playbackTick st
          let r2 := runTicks r1.1 n
          (r2.1, r1.2 :: r2.2)) = _
    rw [playbackTick_paused st h]
    simp only []
    rw [ih { st with frame := st.frame + 1 } h]
    rw [show st.frame + 1 + n = st.frame + (n + 1) from by omega]
    rfl

/-- `runTicks` peels its first tick. -/
theorem runTicks_succ (st : PlaybackState) (n : Nat) :
    runTicks st (n + 1) =
      ((runTicks (playbackTick st).1 n).1,
       (playbackTick st).2 :: (runTicks (playbackTick st).1 n).2) :=
  rfl

/-- `runTicks` peels its last tick: running `n + 1` ticks is running `n`
ticks and then one more. -/
theorem runTicks_add_one (n : Nat) :
    ∀ st : PlaybackState,
      runTicks st (n + 1) =
        ((playbackTick (runTicks st n).1).1,
         (runTicks st n).2 ++ [(playbackTick (runTicks st n).1).2]) := by
  induction n with
  | zero => intro st; rfl
  | succ n ih =>
    intro st
    rw [runTicks_succ st (n + 1), ih (playbackTick st).1, runTicks_succ st n]
    simp [List.cons_append]

/-! ## The cursor and emissions of a ranged playback pass -/

/-- One active ranged tick moves the window cursor from `rangeCursor k` to
`rangeCursor (k + 1)`. -/
theorem rangeCursor_succ (events : List TimestampedInputEvent) (start k : Nat) :
    rangeCursor events start (k + 1) =
      rangeCursor events start k +
        ((events.drop (rangeCursor events start k)).takeWhile
          (fun e => decide (e.frame ≤ start + k))).length := by
  cases k with
  | zero => simp [rangeCursor]
  | succ j =>
    simp only [rangeCursor]
    rw [drop_takeWhile_length]
    rw [takeWhile_split (fun e => decide (e.frame ≤ start + j))
        (fun e => decide (e.frame ≤ start + (j + 1)))
        (fun x hx => by simp only [decide_eq_true_eq] at hx ⊢; omega) events]
    rw [List.length_append]

/-- On a frame-ordered log, the events an active ranged tick emits at
window offset `k` are exactly the log's events at frame `start + k`. -/
theorem emitted_window (events : List TimestampedInputEvent) (start k : Nat)
    (h : FrameOrdered events) :
    ((events.drop (rangeCursor events start k)).takeWhile
        (fun e => decide (e.frame ≤ start + k))).filter
      (fun e => decide (e.frame = start + k)) =
    events.filter (fun e => decide (e.frame = start + k)) := by
  cases k with
  | zero =>
    simpa [rangeCursor] using filter_frame_eq_takeWhile (start + 0) events h
  | succ j =>
    simp only [rangeCursor]
    rw [drop_takeWhile_length]
    rw [← filter_frame_eq_takeWhile (start + (j + 1)) events h]
    rw [takeWhile_split (fun e => decide (e.frame ≤ start + j))
        (fun e => decide (e.frame ≤ start + (j + 1)))
        (fun x hx => by simp only [decide_eq_true_eq] at hx ⊢; omega) events]
    rw [List.filter_append]
    have hnil : (events.takeWhile (fun e => decide (e.frame ≤ start + j))).filter
        (fun e => decide (e.frame = start + (j + 1))) = [] := by
      rw [List.filter_eq_nil_iff]
      intro a ha
      have hle := List.mem_takeWhile_imp ha
      simp only [decide_eq_true_eq] at hle ⊢
      omega
    rw [hnil, List.nil_append]

/-- State invariant of a `FrameRangeOnce` pass started at cursor 0: after
`k ≤ stop - start` ticks the frame counter advanced by `k`, the cursor
sits at `rangeCursor k`, the strategy is untouched and the progress
marker equals `k`. -/
theorem runTicks_once_state (events : List TimestampedInputEvent) (f0 start stop : Nat) :
    ∀ k, k ≤ stop - start →
      (runTicks { frame := f0, log := { events := events, cursor := 0 },
                  strategy := PlaybackStrategy.FrameRangeOnce start stop, progress := 0 } k).1 =
        { frame := f0 + k, log := { events := events, cursor := rangeCursor events start k },
          strategy := PlaybackStrategy.FrameRangeOnce start stop, progress := k } := by
  intro k
  induction k with
  | zero => intro _; rfl
  | succ j ih =>
    intro hk
    rw [runTicks_add_one j _]
    dsimp only
    rw [ih (by omega)]
    have hact := playbackStep_once_active
      { frame := f0 + j + 1, log := { events := events, cursor := rangeCursor events start j },
        strategy := PlaybackStrategy.FrameRangeOnce start stop, progress := j }
      start stop rfl (by dsimp only; omega)
    unfold playbackTick
    dsimp only
    rw [hact]
    dsimp only [PlaybackState.pending]
    rw [← rangeCursor_succ]
    rfl

/-- Total emission of a `FrameCount` run: `n + 1` ticks emit, in order,
exactly the pending events whose frame is at most the final frame
counter value. -/
theorem runTicks_frameCount_flatten (n : Nat) :
    ∀ st : PlaybackState, st.strategy = PlaybackStrategy.FrameCount →
      (runTicks st (n + 1)).2.flatten =
        st.pending.takeWhile (fun e => decide (e.frame ≤ st.frame + (n + 1))) := by
  induction n with
  | zero =>
    intro st h
    have htick := playbackStep_frameCount
      { frame := st.frame + 1, log := st.log, strategy := st.strategy, progress := st.progress } h
    have he : (playbackTick st).2 =
        st.pending.takeWhile (fun e => decide (e.frame ≤ st.frame + 1)) := by
      unfold playbackTick
      rw [htick]
      rfl
    show ((playbackTick st).2 :: []).flatten = _
    rw [he]
    simp
  | succ n ih =>
    intro st h
    have htick := playbackStep_frameCount
      { frame := st.frame + 1, log := st.log, strategy := st.strategy, progress := st.progress } h
    have h1 : (playbackTick st).1.strategy = PlaybackStrategy.FrameCount := by
      unfold playbackTick
      rw [htick]
      exact h
    have he : (playbackTick st).2 =
        st.pending.takeWhile (fun e => decide (e.frame ≤ st.frame + 1)) := by
      unfold playbackTick
      rw [htick]
      rfl
    have hf : (playbackTick st).1.frame = st.frame + 1 := by
      unfold playbackTick
      rw [htick]
    have hp : (playbackTick st).1.pending =
        st.pending.dropWhile (fun e => decide (e.frame ≤ st.frame + 1)) := by
      unfold playbackTick
      rw [htick]
      dsimp only [PlaybackState.pending]
      rw [← List.drop_drop]
      rw [drop_takeWhile_length]
    rw [runTicks_succ st (n + 1)]
    dsimp only
    rw [List.flatten_cons]
    rw [ih (playbackTick st).1 h1]
    rw [he, hp, hf]
    rw [show st.frame + 1 + (n + 1) = st.frame + (n + 1 + 1) from by omega]
    exact (takeWhile_split (fun e => decide (e.frame ≤ st.frame + 1))
      (fun e => decide (e.frame ≤ st.frame + (n + 1 + 1)))
      (fun x hx => by simp only [decide_eq_true_eq] at hx ⊢; omega) st.pending).symm

/-- The running min/max fold over stored frames is bounded by, and bounds,
everything it has seen. -/
theorem minMaxFold_spec (l : List TimestampedInputEvent) :
    ∀ a b : Nat,
      (minMaxFold l a b).1 ≤ a ∧ b ≤ (minMaxFold l a b).2 ∧
      (∀ e ∈ l, (minMaxFold l a b).1 ≤ e.frame ∧ e.frame ≤ (minMaxFold l a b).2) ∧
      ((minMaxFold l a b).1 = a ∨ (minMaxFold l a b).1 ∈ l.map (fun e => e.frame)) ∧
      ((minMaxFold l a b).2 = b ∨ (minMaxFold l a b).2 ∈ l.map (fun e => e.frame)) := by
  induction l with
  | nil => intro a b; simp [minMaxFold]
  | cons x xs ih =>
    intro a b
    have hstep : minMaxFold (x :: xs) a b = minMaxFold xs (min a x.frame) (max b x.frame) := rfl
    rw [hstep]
    obtain ⟨h1, h2, h3, h4, h5⟩ := ih (min a x.frame) (max b x.frame)
    refine ⟨le_trans h1 (min_le_left _ _), le_trans (le_max_left _ _) h2, ?_, ?_, ?_⟩
    · intro e he
      rcases List.mem_cons.mp he with rfl | he
      · exact ⟨le_trans h1 (min_le_right _ _), le_trans (le_max_right _ _) h2⟩
      · exact h3 e he
    · rcases h4 with h4 | h4
      · rcases Nat.le_total a x.frame with hax | hax
        · left
          rw [h4]
          exact min_eq_left hax
        · right
          rw [h4, min_eq_right hax]
          simp
      · right
        simp [h4]
    · rcases h5 with h5 | h5
      · rcases Nat.le_total b x.frame with hbx | hbx
        · right
          rw [h5, max_eq_right hbx]
          simp
        · left
          rw [h5]
          exact max_eq_left hbx
      · right
        simp [h5]

/-! ## Claim theorems -/

/-- C1 (counterexample): under `FrameCount` a tick does not emit only the
events whose frame equals the current FrameCount value. With the
two-event log of `simple_timestamped_input` (frames 1 and 2), a cursor at
0 and the frame counter at 9 — exactly the situation the
`repeated_playback` test creates by resetting the cursor after nine
ticks — the next tick runs at frame 10 and emits both stale events, while
no stored event has frame 10. -/
theorem frameCount_emits_stale_frames_counterexample :
    ¬ ((playbackTick { frame := 9, log := simple_timestamped_input,
                       strategy := PlaybackStrategy.FrameCount, progress := 0 }).2 =
        simple_timestamped_input.events.filter (fun e => decide (e.frame = 9 + 1))) := by
  decide

/-- C1 (amended): under `PlaybackStrategy::FrameCount`, on every tick
InputPlayback emits exactly the pending log events (at or after the
cursor) whose frame is at most the current FrameCount value — catching up
on earlier not-yet-consumed frames — advances the cursor past them, never
self-transitions to another strategy variant, and never alters the stored
events. -/
theorem frameCount_catchup_never_transitions (st : PlaybackState)
    (hs : st.strategy = PlaybackStrategy.FrameCount) :
    (playbackTick st).1.strategy = PlaybackStrategy.FrameCount ∧
    (playbackTick st).1.log.events = st.log.events ∧
    (FrameOrdered st.pending →
      (playbackTick st).2 =
        st.pending.filter (fun e => decide (e.frame ≤ st.frame + 1)) ∧
      (playbackTick st).1.log.cursor = st.log.cursor + (playbackTick st).2.length) := by
  have htick := playbackStep_frameCount
    { frame := st.frame + 1, log := st.log, strategy := st.strategy, progress := st.progress } hs
  have he : (playbackTick st).2 =
      st.pending.takeWhile (fun e => decide (e.frame ≤ st.frame + 1)) := by
    unfold playbackTick
    rw [htick]
    rfl
  refine ⟨?_, ?_, ?_⟩
  · unfold playbackTick
    rw [htick]
    exact hs
  · unfold playbackTick
    rw [htick]
  · intro hord
    refine ⟨?_, ?_⟩
    · rw [he]
      exact takeWhile_frame_le_eq_filter (st.frame + 1) st.pending hord
    · rw [he]
      unfold playbackTick
      rw [htick]
      rfl

/-- C1 (witness): the amended theorem applied to the
`complex_timestamped_input` log at frame counter 0: the first tick emits
the frame-0 and frame-1 events and moves the cursor to 2. -/
theorem frameCount_catchup_never_transitions_witness :
    (playbackTick { frame := 0, log := complex_timestamped_input,
                    strategy := PlaybackStrategy.FrameCount, progress := 0 }).2 =
      (PlaybackState.pending { frame := 0, log := complex_timestamped_input,
                               strategy := PlaybackStrategy.FrameCount, progress := 0 }).filter
        (fun e => decide (e.frame ≤ 0 + 1)) :=
  ((frameCount_catchup_never_transitions
    { frame := 0, log := complex_timestamped_input,
      strategy := PlaybackStrategy.FrameCount, progress := 0 } rfl).2.2 (by decide)).1

/-- C2: under `PlaybackStrategy::FrameRangeOnce(start, stop)` over a
frame-ordered log read from cursor 0, tick `k + 1` (for `k < stop - start`)
emits exactly the log's events at frame `start + k` — one frame's worth
per tick — while the strategy stays `FrameRangeOnce`; the tick at which
the progress marker reaches `stop` emits nothing and turns the strategy
into `Paused`; and from any paused state every further tick stays
`Paused` and emits zero events. -/
theorem frameRangeOnce_window_then_paused
    (events : List TimestampedInputEvent) (f0 start stop : Nat)
    (h : FrameOrdered events) :
    (∀ k, k < stop - start →
      (playbackTick (runTicks { frame := f0, log := { events := events, cursor := 0 },
                                strategy := PlaybackStrategy.FrameRangeOnce start stop,
                                progress := 0 } k).1).2 =
        events.filter (fun e => decide (e.frame = start + k)) ∧
      (playbackTick (runTicks { frame := f0, log := { events := events, cursor := 0 },
                                strategy := PlaybackStrategy.FrameRangeOnce start stop,
                                progress := 0 } k).1).1.strategy =
        PlaybackStrategy.FrameRangeOnce start stop) ∧
    ((playbackTick (runTicks { frame := f0, log := { events := events, cursor := 0 },
                               strategy := PlaybackStrategy.FrameRangeOnce start stop,
                               progress := 0 } (stop - start)).1).1.strategy =
        PlaybackStrategy.Paused ∧
     (playbackTick (runTicks { frame := f0, log := { events := events, cursor := 0 },
                               strategy := PlaybackStrategy.FrameRangeOnce start stop,
                               progress := 0 } (stop - start)).1).2 = []) ∧
    (∀ (st : PlaybackState) (n : Nat), st.strategy = PlaybackStrategy.Paused →
      (runTicks st n).1.strategy = PlaybackStrategy.Paused ∧
      ∀ es ∈ (runTicks st n).2, es = []) := by
  refine ⟨?_, ?_, ?_⟩
  · intro k hk
    rw [runTicks_once_state events f0 start stop k (le_of_lt hk)]
    have hact := playbackStep_once_active
      { frame := f0 + k + 1, log := { events := events, cursor := rangeCursor events start k },
        strategy := PlaybackStrategy.FrameRangeOnce start stop, progress := k }
      start stop rfl (by dsimp only; omega)
    refine ⟨?_, ?_⟩
    · unfold playbackTick
      rw [hact]
      dsimp only [PlaybackState.pending]
      exact emitted_window events start k h
    · unfold playbackTick
      rw [hact]
  · rw [runTicks_once_state events f0 start stop (stop - start) le_rfl]
    have hdone := playbackStep_once_exhausted
      { frame := f0 + (stop - start) + 1,
        log := { events := events, cursor := rangeCursor events start (stop - start) },
        strategy := PlaybackStrategy.FrameRangeOnce start stop, progress := stop - start }
      start stop rfl (by dsimp only; omega)
    constructor
    · unfold playbackTick
      rw [hdone]
    · unfold playbackTick
      rw [hdone]
  · intro st n hst
    rw [runTicks_paused n st hst]
    exact ⟨hst, fun es hes => List.eq_of_mem_replicate hes⟩

/-- C2 (witness): `FrameRangeOnce(2, 5)` over the frame-ordered
`complex_timestamped_input` log: tick 1 emits the frame-2 events, and the
tick after the three window ticks leaves the strategy `Paused`. -/
theorem frameRangeOnce_window_then_paused_witness :
    (playbackTick (runTicks { frame := 0,
                              log := { events := complex_timestamped_input.events, cursor := 0 },
                              strategy := PlaybackStrategy.FrameRangeOnce 2 5,
                              progress := 0 } 0).1).2 =
      complex_timestamped_input.events.filter (fun e => decide (e.frame = 2 + 0)) ∧
    (playbackTick (runTicks { frame := 0,
                              log := { events := complex_timestamped_input.events, cursor := 0 },
                              strategy := PlaybackStrategy.FrameRangeOnce 2 5,
                              progress := 0 } (5 - 2)).1).1.strategy = PlaybackStrategy.Paused :=
  ⟨((frameRangeOnce_window_then_paused complex_timestamped_input.events 0 2 5
      (by decide)).1 0 (by decide)).1,
   (frameRangeOnce_window_then_paused complex_timestamped_input.events 0 2 5
      (by decide)).2.1.1⟩

/-- C3: under `PlaybackStrategy::FrameRangeLoop(start, stop)` on a
frame-ordered log, the tick after a completed pass (progress marker at or
beyond the window end) is a single quiet tick: it emits nothing, keeps the
strategy and the stored events, and resets the cursor and progress; the
very next tick then re-emits exactly the events at frame `start` again,
with the strategy still the same `FrameRangeLoop(start, stop)` value. -/
theorem frameRangeLoop_spacing_tick_and_restart (st : PlaybackState) (start stop : Nat)
    (hs : st.strategy = PlaybackStrategy.FrameRangeLoop start stop)
    (hdone : stop ≤ start + st.progress)
    (hord : FrameOrdered st.log.events)
    (hlt : start < stop) :
    (playbackTick st).2 = [] ∧
    (playbackTick st).1.strategy = PlaybackStrategy.FrameRangeLoop start stop ∧
    (playbackTick st).1.log.events = st.log.events ∧
    (playbackTick st).1.log.cursor = 0 ∧
    (playbackTick (playbackTick st).1).2 =
      st.log.events.filter (fun e => decide (e.frame = start)) ∧
    (playbackTick (playbackTick st).1).1.strategy =
      PlaybackStrategy.FrameRangeLoop start stop := by
  have h1 := playbackStep_loop_exhausted
    { frame := st.frame + 1, log := st.log, strategy := st.strategy, progress := st.progress }
    start stop hs hdone
  have ht1 : playbackTick st =
      ({ frame := st.frame + 1, log := { events := st.log.events, cursor := 0 },
         strategy := st.strategy, progress := 0 }, []) := by
    unfold playbackTick
    rw [h1]
  have h2 := playbackStep_loop_active
    { frame := st.frame + 1 + 1, log := { events := st.log.events, cursor := 0 },
      strategy := st.strategy, progress := 0 }
    start stop hs (by dsimp only; omega)
  have ht2 : playbackTick (playbackTick st).1 =
      playbackStep { frame := st.frame + 1 + 1, log := { events := st.log.events, cursor := 0 },
                     strategy := st.strategy, progress := 0 } := by
    rw [ht1]
    rfl
  refine ⟨?_, ?_, ?_, ?_, ?_, ?_⟩
  · rw [ht1]
  · rw [ht1]
    exact hs
  · rw [ht1]
  · rw [ht1]
  · rw [ht2, h2]
    dsimp only [PlaybackState.pending]
    rw [List.drop_zero]
    simpa using filter_frame_eq_takeWhile start st.log.events hord
  · rw [ht2, h2]
    exact hs

/-- C3 (witness): the loop state after one full pass of
`FrameRangeLoop(2, 5)` over `complex_timestamped_input` (cursor 5,
progress 3): the spacing tick is quiet and the following tick re-emits
the two frame-2 events with the strategy unchanged. -/
theorem frameRangeLoop_spacing_tick_and_restart_witness :
    (playbackTick { frame := 3, log := { events := complex_timestamped_input.events, cursor := 5 },
                    strategy := PlaybackStrategy.FrameRangeLoop 2 5, progress := 3 }).2 = [] ∧
    (playbackTick (playbackTick { frame := 3,
                                  log := { events := complex_timestamped_input.events,
                                           cursor := 5 },
                                  strategy := PlaybackStrategy.FrameRangeLoop 2 5,
                                  progress := 3 }).1).2 =
      complex_timestamped_input.events.filter (fun e => decide (e.frame = 2)) :=
  ⟨(frameRangeLoop_spacing_tick_and_restart
      { frame := 3, log := { events := complex_timestamped_input.events, cursor := 5 },
        strategy := PlaybackStrategy.FrameRangeLoop 2 5, progress := 3 }
      2 5 rfl (by decide) (by decide) (by decide)).1,
   (frameRangeLoop_spacing_tick_and_restart
      { frame := 3, log := { events := complex_timestamped_input.events, cursor := 5 },
        strategy := PlaybackStrategy.FrameRangeLoop 2 5, progress := 3 }
      2 5 rfl (by decide) (by decide) (by decide)).2.2.2.2.1⟩

/-- C4 (counterexample): replaying after `reset_cursor()` is not
tick-for-tick identical to the first pass. In the `repeated_playback`
scenario — `simple_timestamped_input`, `FrameCount` strategy, nine ticks,
then `reset_cursor()` — the first pass emits one event on each of ticks 1
and 2, while the replay emits both events together on its first tick
(the frame counter is already at 9), so the per-tick emission sequences
differ. -/
theorem reset_cursor_replay_not_tick_for_tick :
    ¬ ((runTicks { (runTicks (playback_app PlaybackStrategy.FrameCount
            simple_timestamped_input) 9).1 with
          log := (runTicks (playback_app PlaybackStrategy.FrameCount
            simple_timestamped_input) 9).1.log.reset_cursor } 9).2 =
        (runTicks (playback_app PlaybackStrategy.FrameCount simple_timestamped_input) 9).2) := by
  decide

/-- C4 (amended): `reset_cursor()` sets the cursor to 0 and leaves the
stored events untouched, and replaying a `FrameCount`-strategy log after
`reset_cursor()` re-emits exactly the same events in the same order as
the first pass — the concatenation of the per-tick emissions of any run
whose final frame counter covers every logged frame is the full stored
sequence — though not necessarily distributed tick for tick as in the
first pass. -/
theorem reset_cursor_preserves_events_and_replays_in_order
    (log : TimestampedInputs) (f0 n : Nat) :
    (log.reset_cursor).cursor = 0 ∧
    (log.reset_cursor).events = log.events ∧
    ((∀ e ∈ log.events, e.frame ≤ f0 + (n + 1)) →
      (runTicks { frame := f0, log := log.reset_cursor,
                  strategy := PlaybackStrategy.FrameCount,
                  progress := 0 } (n + 1)).2.flatten = log.events) := by
  refine ⟨rfl, rfl, ?_⟩
  intro hb
  rw [runTicks_frameCount_flatten n _ rfl]
  dsimp only [PlaybackState.pending, TimestampedInputs.reset_cursor]
  rw [List.drop_zero]
  exact List.takeWhile_eq_self_iff.mpr
    (fun e he => by simp only [decide_eq_true_eq]; exact hb e he)

/-- C4 (witness): the amended theorem at the `repeated_playback`
scenario: after `reset_cursor()` at frame counter 9, a single further
tick re-emits the full two-event log in order. -/
theorem reset_cursor_preserves_events_and_replays_in_order_witness :
    (runTicks { frame := 9, log := simple_timestamped_input.reset_cursor,
                strategy := PlaybackStrategy.FrameCount,
                progress := 0 } 1).2.flatten = simple_timestamped_input.events :=
  (reset_cursor_preserves_events_and_replays_in_order
    simple_timestamped_input 9 0).2.2 (by decide)

/-- Appending a batch of records with `sendAll` concatenates them, in
order, after the stored events, and never moves the cursor. -/
theorem sendAll_spec (entries : List TimestampedInputEvent) :
    ∀ log : TimestampedInputs,
      (log.sendAll entries).events = log.events ++ entries ∧
      (log.sendAll entries).cursor = log.cursor := by
  induction entries with
  | nil =>
    intro log
    constructor
    · show log.events = log.events ++ []
      rw [List.append_nil]
    · rfl
  | cons x xs ih =>
    intro log
    have hstep : log.sendAll (x :: xs) =
        (log.send x.frame x.time_since_startup x.input_event).sendAll xs := rfl
    rw [hstep]
    obtain ⟨h1, h2⟩ := ih (log.send x.frame x.time_since_startup x.input_event)
    constructor
    · rw [h1]
      show (log.events ++ [⟨x.frame, x.time_since_startup, x.input_event⟩]) ++ xs =
        log.events ++ x :: xs
      rw [List.append_assoc]
      rfl
    · rw [h2]
      rfl

/-- A playback tick keeps the stored events and keeps the cursor within
bounds. -/
theorem playbackTick_cursor_le (st : PlaybackState)
    (h : st.log.cursor ≤ st.log.events.length) :
    (playbackTick st).1.log.cursor ≤ (playbackTick st).1.log.events.length := by
  rcases hst : st.strategy with _ | _ | ⟨a, b⟩ | ⟨a, b⟩
  · have ht := playbackStep_paused
      { frame := st.frame + 1, log := st.log, strategy := st.strategy, progress := st.progress } hst
    unfold playbackTick
    rw [ht]
    exact h
  · have ht := playbackStep_frameCount
      { frame := st.frame + 1, log := st.log, strategy := st.strategy, progress := st.progress } hst
    unfold playbackTick
    rw [ht]
    dsimp only [PlaybackState.pending]
    have h1 : ((st.log.events.drop st.log.cursor).takeWhile
        (fun e => decide (e.frame ≤ st.frame + 1))).length ≤
          (st.log.events.drop st.log.cursor).length :=
      (List.takeWhile_sublist _).length_le
    rw [List.length_drop] at h1
    omega
  · by_cases hc : b ≤ a + st.progress
    · have ht := playbackStep_once_exhausted
        { frame := st.frame + 1, log := st.log, strategy := st.strategy, progress := st.progress }
        a b hst hc
      unfold playbackTick
      rw [ht]
      exact h
    · have ht := playbackStep_once_active
        { frame := st.frame + 1, log := st.log, strategy := st.strategy, progress := st.progress }
        a b hst (by dsimp only; omega)
      unfold playbackTick
      rw [ht]
      dsimp only [PlaybackState.pending]
      have h1 : ((st.log.events.drop st.log.cursor).takeWhile
          (fun e => decide (e.frame ≤ a + st.progress))).length ≤
            (st.log.events.drop st.log.cursor).length :=
        (List.takeWhile_sublist _).length_le
      rw [List.length_drop] at h1
      omega
  · by_cases hc : b ≤ a + st.progress
    · have ht := playbackStep_loop_exhausted
        { frame := st.frame + 1, log := st.log, strategy := st.strategy, progress := st.progress }
        a b hst hc
      unfold playbackTick
      rw [ht]
      exact Nat.zero_le _
    · have ht := playbackStep_loop_active
        { frame := st.frame + 1, log := st.log, strategy := st.strategy, progress := st.progress }
        a b hst (by dsimp only; omega)
      unfold playbackTick
      rw [ht]
      dsimp only [PlaybackState.pending]
      have h1 : ((st.log.events.drop st.log.cursor).takeWhile
          (fun e => decide (e.frame ≤ a + st.progress))).length ≤
            (st.log.events.drop st.log.cursor).length :=
        (List.takeWhile_sublist _).length_le
      rw [List.length_drop] at h1
      omega

/-- C5: for every sequence of `send` calls into a fresh log the stored
events are exactly the sent records in insertion order with their
caller-set frame values unchanged (the log never reorders), and each
operation — `send`, `reset_cursor`, and a playback tick's cursor
advance — keeps the cursor within `0 ≤ cursor ≤ length`. -/
theorem log_insertion_order_and_cursor_invariant
    (entries : List TimestampedInputEvent) (log : TimestampedInputs)
    (f t : Nat) (e : InputEvent) (st : PlaybackState) :
    (TimestampedInputs.default.sendAll entries).events = entries ∧
    (TimestampedInputs.default.sendAll entries).cursor = 0 ∧
    (log.send f t e).events = log.events ++ [⟨f, t, e⟩] ∧
    (log.send f t e).cursor = log.cursor ∧
    (log.cursor ≤ log.events.length →
      (log.send f t e).cursor ≤ (log.send f t e).events.length) ∧
    0 ≤ (log.reset_cursor).cursor ∧
    (log.reset_cursor).cursor ≤ (log.reset_cursor).events.length ∧
    (st.log.cursor ≤ st.log.events.length →
      (playbackTick st).1.log.cursor ≤ (playbackTick st).1.log.events.length) := by
  obtain ⟨hs1, hs2⟩ := sendAll_spec entries TimestampedInputs.default
  refine ⟨?_, hs2, rfl, rfl, ?_, Nat.zero_le _, Nat.zero_le _, playbackTick_cursor_le st⟩
  · rw [hs1]
    rfl
  · intro hc
    show log.cursor ≤
      (log.events ++ [({ frame := f, time_since_startup := t, input_event := e } :
        TimestampedInputEvent)]).length
    rw [List.length_append]
    omega

/-- C5 (witness): the invariant theorem at the `complex_timestamped_input`
records and a mid-playback state of the `playback_strategy_frame` test. -/
theorem log_insertion_order_and_cursor_invariant_witness :
    (TimestampedInputs.default.sendAll complex_timestamped_input.events).events =
      complex_timestamped_input.events ∧
    (playbackTick { frame := 1, log := { events := complex_timestamped_input.events, cursor := 2 },
                    strategy := PlaybackStrategy.FrameCount,
                    progress := 0 }).1.log.cursor ≤
      (playbackTick { frame := 1, log := { events := complex_timestamped_input.events, cursor := 2 },
                      strategy := PlaybackStrategy.FrameCount,
                      progress := 0 }).1.log.events.length :=
  ⟨(log_insertion_order_and_cursor_invariant complex_timestamped_input.events
      TimestampedInputs.default 0 0 (InputEvent.OtherDevice 0)
      (playback_app PlaybackStrategy.Paused TimestampedInputs.default)).1,
   (log_insertion_order_and_cursor_invariant complex_timestamped_input.events
      TimestampedInputs.default 0 0 (InputEvent.OtherDevice 0)
      { frame := 1, log := { events := complex_timestamped_input.events, cursor := 2 },
        strategy := PlaybackStrategy.FrameCount, progress := 0 }).2.2.2.2.2.2.2 (by decide)⟩

/-- C6: under `PlaybackStrategy::Paused`, any number of ticks emits no
events and leaves the whole log — stored events and cursor alike —
unchanged, with the strategy still `Paused`. -/
theorem paused_emits_nothing_cursor_unchanged (st : PlaybackState) (n : Nat)
    (h : st.strategy = PlaybackStrategy.Paused) :
    (runTicks st n).1.log = st.log ∧
    (runTicks st n).1.strategy = PlaybackStrategy.Paused ∧
    ∀ es ∈ (runTicks st n).2, es = [] := by
  rw [runTicks_paused n st h]
  exact ⟨rfl, h, fun es hes => List.eq_of_mem_replicate hes⟩

/-- C6 (witness): ten paused ticks over the fresh
`complex_timestamped_input` log leave the log (cursor 0 included)
untouched, as the `playback_strategy_paused` test asserts. -/
theorem paused_emits_nothing_cursor_unchanged_witness :
    (runTicks (playback_app PlaybackStrategy.Paused complex_timestamped_input) 10).1.log =
      complex_timestamped_input :=
  (paused_emits_nothing_cursor_unchanged
    (playback_app PlaybackStrategy.Paused complex_timestamped_input) 10 rfl).1

/-- C7: `frame_range()` returns `none` exactly on the empty log — an
explicit absent result callers must branch on, never a sentinel pair —
and on a non-empty log it returns `some (min_frame, max_frame)`: a pair
that bounds every stored event's frame and whose two components are
themselves frames of stored events. -/
theorem frame_range_min_max_or_none (log : TimestampedInputs) :
    (log.frame_range = none ↔ log.events = []) ∧
    (∀ a b, log.frame_range = some (a, b) →
      (∀ e ∈ log.events, a ≤ e.frame ∧ e.frame ≤ b) ∧
      a ∈ log.events.map (fun e => e.frame) ∧
      b ∈ log.events.map (fun e => e.frame)) := by
  cases hev : log.events with
  | nil =>
    have hfr : log.frame_range = none := by
      unfold TimestampedInputs.frame_range
      rw [hev]
    constructor
    · rw [hfr]
      simp
    · intro a b hab
      rw [hfr] at hab
      exact Option.noConfusion hab
  | cons x xs =>
    have hfr : log.frame_range = some (minMaxFold xs x.frame x.frame) := by
      unfold TimestampedInputs.frame_range
      rw [hev]
    constructor
    · rw [hfr]
      simp
    · intro a b hab
      rw [hfr] at hab
      have hmm := Option.some.inj hab
      have ha : (minMaxFold xs x.frame x.frame).1 = a := by rw [hmm]
      have hb : (minMaxFold xs x.frame x.frame).2 = b := by rw [hmm]
      obtain ⟨h1, h2, h3, h4, h5⟩ := minMaxFold_spec xs x.frame x.frame
      subst ha
      subst hb
      refine ⟨?_, ?_, ?_⟩
      · intro e he
        rcases List.mem_cons.mp he with rfl | he
        · exact ⟨h1, h2⟩
        · exact h3 e he
      · rcases h4 with h4 | h4
        · rw [h4]
          exact List.mem_map_of_mem _ (List.mem_cons_self x xs)
        · rw [List.map_cons]
          exact List.mem_cons_of_mem _ h4
      · rcases h5 with h5 | h5
        · rw [h5]
          exact List.mem_map_of_mem _ (List.mem_cons_self x xs)
        · rw [List.map_cons]
          exact List.mem_cons_of_mem _ h5

/-- C7 (witness): on `simple_timestamped_input` (frames 1 and 2)
`frame_range()` is `some (1, 2)` and the returned minimum is the frame of
a stored event; on the empty log it is `none`. -/
theorem frame_range_min_max_or_none_witness :
    simple_timestamped_input.frame_range = some (1, 2) ∧
    1 ∈ simple_timestamped_input.events.map (fun e => e.frame) ∧
    (TimestampedInputs.default.frame_range = none ↔ TimestampedInputs.default.events = []) :=
  ⟨by decide,
   ((frame_range_min_max_or_none simple_timestamped_input).2 1 2 (by decide)).2.1,
   (frame_range_min_max_or_none TimestampedInputs.default).1⟩

/-- C8: when the gamepad example's toggle system switches from playback
back into capture mode, the log is replaced by a fresh default one — no
stored events, cursor 0 — so `frame_range()` afterwards returns `none`;
capture is re-enabled and playback paused. -/
theorem switch_to_capture_clears_log (st : HostState)
    (h : st.input_strategy = InputStrategy.Playback) :
    (toggle_capture_vs_playback true st).timestamped_input.events = [] ∧
    (toggle_capture_vs_playback true st).timestamped_input.cursor = 0 ∧
    (toggle_capture_vs_playback true st).timestamped_input.frame_range = none ∧
    (toggle_capture_vs_playback true st).input_modes = InputModesCaptured.ENABLE_ALL ∧
    (toggle_capture_vs_playback true st).playback_strategy = PlaybackStrategy.Paused := by
  obtain ⟨modes, strat, input, istrat⟩ := st
  dsimp only at h
  subst h
  simp [toggle_capture_vs_playback, TimestampedInputs.default, TimestampedInputs.frame_range]

/-- C8 (witness): the toggle applied to a playback-mode host holding the
recorded `simple_timestamped_input` log: the log comes back empty with
`frame_range()` returning `none`. -/
theorem switch_to_capture_clears_log_witness :
    (toggle_capture_vs_playback true
      { input_modes := InputModesCaptured.DISABLE_ALL,
        playback_strategy := PlaybackStrategy.FrameRangeOnce 1 2,
        timestamped_input := simple_timestamped_input,
        input_strategy := InputStrategy.Playback }).timestamped_input.frame_range = none :=
  (switch_to_capture_clears_log
    { input_modes := InputModesCaptured.DISABLE_ALL,
      playback_strategy := PlaybackStrategy.FrameRangeOnce 1 2,
      timestamped_input := simple_timestamped_input,
      input_strategy := InputStrategy.Playback } rfl).2.2.1

/-- C9: adopting a ranged strategy with `start > end` is signalled as a
configuration error at the point of adoption — `adopt_strategy` returns
`Except.error (InvalidRange start end)` for both ranged variants — and is
never silently corrected: a successful adoption returns the strategy with
its bounds unchanged. The adoption the gamepad example performs, with
bounds taken from `frame_range()`, always satisfies `start ≤ end` and
therefore always succeeds. -/
theorem invalid_range_signalled_at_adoption (a b : Nat) (log : TimestampedInputs) :
    (b < a →
      adopt_strategy (PlaybackStrategy.FrameRangeOnce a b) =
        Except.error (ConfigError.InvalidRange a b) ∧
      adopt_strategy (PlaybackStrategy.FrameRangeLoop a b) =
        Except.error (ConfigError.InvalidRange a b)) ∧
    (a ≤ b →
      adopt_strategy (PlaybackStrategy.FrameRangeOnce a b) =
        Except.ok (PlaybackStrategy.FrameRangeOnce a b) ∧
      adopt_strategy (PlaybackStrategy.FrameRangeLoop a b) =
        Except.ok (PlaybackStrategy.FrameRangeLoop a b)) ∧
    (∀ s, adopt_strategy (PlaybackStrategy.FrameRangeOnce a b) = Except.ok s →
      s = PlaybackStrategy.FrameRangeOnce a b) ∧
    (∀ s, adopt_strategy (PlaybackStrategy.FrameRangeLoop a b) = Except.ok s →
      s = PlaybackStrategy.FrameRangeLoop a b) ∧
    (∀ lo hi, log.frame_range = some (lo, hi) →
      adopt_strategy (PlaybackStrategy.FrameRangeOnce lo hi) =
        Except.ok (PlaybackStrategy.FrameRangeOnce lo hi)) := by
  refine ⟨?_, ?_, ?_, ?_, ?_⟩
  · intro hba
    simp only [adopt_strategy]
    rw [if_pos hba, if_pos hba]
    exact ⟨rfl, rfl⟩
  · intro hab
    simp only [adopt_strategy]
    rw [if_neg (by omega), if_neg (by omega)]
    exact ⟨rfl, rfl⟩
  · intro s hok
    simp only [adopt_strategy] at hok
    by_cases hba : b < a
    · rw [if_pos hba] at hok
      exact Except.noConfusion hok
    · rw [if_neg hba] at hok
      exact (Except.ok.inj hok).symm
  · intro s hok
    simp only [adopt_strategy] at hok
    by_cases hba : b < a
    · rw [if_pos hba] at hok
      exact Except.noConfusion hok
    · rw [if_neg hba] at hok
      exact (Except.ok.inj hok).symm
  · intro lo hi hfr
    cases hev : log.events with
    | nil =>
      rw [show log.frame_range = none from by unfold TimestampedInputs.frame_range; rw [hev]] at hfr
      exact Option.noConfusion hfr
    | cons x xs =>
      rw [show log.frame_range = some (minMaxFold xs x.frame x.frame) from by
        unfold TimestampedInputs.frame_range; rw [hev]] at hfr
      have hmm := Option.some.inj hfr
      obtain ⟨h1, h2, h3, h4, h5⟩ := minMaxFold_spec xs x.frame x.frame
      have hlohi : lo ≤ hi := by
        have hlo : (minMaxFold xs x.frame x.frame).1 = lo := by rw [hmm]
        have hhi : (minMaxFold xs x.frame x.frame).2 = hi := by rw [hmm]
        omega
      simp only [adopt_strategy]
      rw [if_neg (by omega)]

/-- C9 (witness): the bounds 5 and 3 (start > end) are rejected with
`InvalidRange` at adoption, while the bounds obtained from
`frame_range()` of `simple_timestamped_input` are accepted unchanged. -/
theorem invalid_range_signalled_at_adoption_witness :
    adopt_strategy (PlaybackStrategy.FrameRangeOnce 5 3) =
      Except.error (ConfigError.InvalidRange 5 3) ∧
    adopt_strategy (PlaybackStrategy.FrameRangeOnce 1 2) =
      Except.ok (PlaybackStrategy.FrameRangeOnce 1 2) :=
  ⟨((invalid_range_signalled_at_adoption 5 3 TimestampedInputs.default).1 (by decide)).1,
   (invalid_range_signalled_at_adoption 1 2 simple_timestamped_input).2.2.2.2 1 2 (by decide)⟩

/-- An idle tick (no raw input) of a paused world only advances the frame
counter: nothing is captured, nothing is played back, and the pressed-key
state is untouched. -/
theorem worldTick_idle_paused (w : World) (h : w.strategy = PlaybackStrategy.Paused) :
    worldTick [] w = ({ w with frame := w.frame + 1 }, []) := by
  have hcap : captureKeyboard w.modes (w.frame + 1) [] w.log = w.log := by
    unfold captureKeyboard
    cases w.modes.keyboard <;> simp
  unfold worldTick
  dsimp only
  rw [hcap]
  rw [playbackStep_paused
    { frame := w.frame + 1, log := w.log, strategy := w.strategy, progress := w.progress } h]
  rfl

/-- Any number of idle ticks of a paused world only advances the frame
counter. -/
theorem runWorldIdle_paused (m : Nat) :
    ∀ w : World, w.strategy = PlaybackStrategy.Paused →
      runWorldIdle w m = { w with frame := w.frame + m } := by
  induction m with
  | zero => intro w _; rfl
  | succ m ih =>
    intro w h
    show runWorldIdle (worldTick [] w).1 m = _
    rw [worldTick_idle_paused w h]
    dsimp only
    rw [ih { w with frame := w.frame + 1 } h]
    rw [show w.frame + 1 + m = w.frame + (m + 1) from by omega]

/-- C10: capture followed by playback is a round trip. In the
`roundTripScenario` — any key press captured on tick 1 while playback is
paused, any number `m` of idle ticks, then capture disabled
(`InputModesCaptured::DISABLE_ALL`) and `PlaybackStrategy::FrameCount`
selected — the next tick re-emits exactly the captured press into the
keyboard stream, and the host's pressed-key state registers the key as
pressed again. -/
theorem capture_then_playback_round_trip (sc k m : Nat) :
    (roundTripScenario sc k m).2 =
      [{ scan_code := sc, key_code := some k, state := ButtonState.Pressed }] ∧
    k ∈ (roundTripScenario sc k m).1.pressed := by
  have hw1 : (worldTick [{ scan_code := sc, key_code := some k, state := ButtonState.Pressed }]
      { frame := 0, log := TimestampedInputs.default, strategy := PlaybackStrategy.Paused,
        progress := 0, modes := default, pressed := [] }).1 =
      { frame := 1,
        log := { events := [{ frame := 1, time_since_startup := 1,
                              input_event := InputEvent.Keyboard
                                { scan_code := sc, key_code := some k,
                                  state := ButtonState.Pressed } }],
                 cursor := 0 },
        strategy := PlaybackStrategy.Paused, progress := 0,
        modes := InputModesCaptured.ENABLE_ALL, pressed := [k] } := rfl
  unfold roundTripScenario
  dsimp only
  rw [hw1]
  rw [runWorldIdle_paused m _ rfl]
  dsimp only
  have h12 : (1 : Nat) ≤ 1 + m + 1 := by omega
  constructor
  · simp [worldTick, captureKeyboard, playbackStep, PlaybackState.pending, playedKeyboard,
      List.takeWhile_cons, h12]
  · simp [worldTick, captureKeyboard, playbackStep, PlaybackState.pending, playedKeyboard,
      List.takeWhile_cons, h12, applyKeyboardEvent, List.insert]
